import Mathlib

/-!
Verification of the unzippr remote ZIP engine.

The development shallowly embeds the TypeScript sources:

* `zip-remote` module — `readU16` / `readU32` / `readU64`, `findEOCD`,
  `parseRemoteZip` (Central Directory iteration with ZIP64 extra-field
  resolution), `fetchRange`, `extractRemoteFile`, `extractRemoteFileRaw`;
* `surgical-extract` module — `createZipFromRemoteSelection`,
  `downloadSingleFile`;
* the stats-bar `handleExtractSelected` dispatch;
* the proxy route media-streaming branch of `GET`.

Byte buffers (`Uint8Array`) are embedded as `List Nat`; every read reduces
modulo 256, matching the 8-bit storage of `Uint8Array`, and out-of-range
indices read as 0 (matching the guarded uses in the source, which always
bound-check before multi-byte reads that matter).  JavaScript numbers are
embedded as `Nat` where the source only ever produces non-negative
integers, and as `Int` where the source can go negative (the media
gateway arithmetic).  All definitions are executable.
-/

set_option maxRecDepth 100000

namespace Unzippr

/-! ## Byte-level primitives (zip-remote helpers) -/

/-- One byte of a `Uint8Array`: stored values are always in `[0, 256)`. -/
def byteAt (b : List Nat) (i : Nat) : Nat := b.getD i 0 % 256

/-- Little-endian 16-bit read, from `readU16`. -/
def readU16 (b : List Nat) (off : Nat) : Nat :=
  byteAt b off + 256 * byteAt b (off + 1)

/-- Little-endian 32-bit read, from `readU32` (the `>>> 0` makes the JS
value the plain unsigned sum, which is what this is). -/
def readU32 (b : List Nat) (off : Nat) : Nat :=
  byteAt b off + 256 * byteAt b (off + 1) + 65536 * byteAt b (off + 2) +
    16777216 * byteAt b (off + 3)

/-- Little-endian 64-bit read, from `readU64` (`hi * 0x100000000 + lo`;
exact for the sizes the source documents itself for). -/
def readU64 (b : List Nat) (off : Nat) : Nat :=
  readU32 b off + 4294967296 * readU32 b (off + 4)

/-- EOCD record signature `0x06054b50`. -/
def eocdSignature : Nat := 0x06054b50

/-- Central Directory file header signature `0x02014b50`. -/
def cdSignature : Nat := 0x02014b50

/-- Local File Header signature `0x04034b50`. -/
def lfhSignature : Nat := 0x04034b50

/-! ## EOCD location (`findEOCD`)

The source scans `for (let i = buf.length - 22; i >= 0 && i >= buf.length
- 65557; i--)`.  The loop visits the strictly descending offsets from
`length - 22` down to `max 0 (length - 65557)`, and visits nothing at all
when `length < 22` (the initial index is already negative).  We embed the
visited index sequence explicitly and take the first signature hit. -/

/-- The exact descending sequence of offsets inspected by the `findEOCD`
loop (ignoring the early exit on a signature match, which only shortens
the sequence of reads). -/
def eocdCandidates (len : Nat) : List Nat :=
  if len < 22 then []
  else (List.range ((len - 22) - (len - 65557) + 1)).map (fun k => len - 22 - k)

/-- `findEOCD`: first candidate offset holding the EOCD signature;
`none` embeds the sentinel `-1` of the source. -/
def findEOCD (buf : List Nat) : Option Nat :=
  (eocdCandidates buf.length).find? (fun i => readU32 buf i == eocdSignature)

/-- Error text thrown by `parseRemoteZip` when `findEOCD` returns -1. -/
def notAZipMessage : String :=
  "Not a valid ZIP file - could not find End of Central Directory"

/-- Step 2 of `parseRemoteZip`: locate the EOCD in the tail buffer or
throw the not-a-valid-ZIP error. -/
def locateEOCD (buf : List Nat) : Except String Nat :=
  match findEOCD buf with
  | some i => .ok i
  | none => .error notAZipMessage

/-! ### Candidate-offset bounds -/

/-! ## ZIP64 extended-information extra field

Embeds the extra-field handling inside the Central Directory loop of
`parseRemoteZip` (the `if headerId === 0x0001` body and the surrounding
`while (ePos + 4 <= extraEnd)` scan). -/

/-- The straight-line field logic of the `headerId === 0x0001` branch:
read 64-bit replacements in order (uncompressed, compressed, local header
offset), each consumed only when its 32-bit value was the sentinel and 8
more bytes fit inside the declared block size. -/
def zip64Fields (buf : List Nat) (ePos dataSize unc comp lho : Nat) :
    Nat × Nat × Nat :=
  let fieldOff0 := ePos + 4
  let unc1 :=
    if unc = 0xffffffff ∧ fieldOff0 + 8 ≤ ePos + 4 + dataSize then
      readU64 buf fieldOff0
    else unc
  let fieldOff1 :=
    if unc = 0xffffffff ∧ fieldOff0 + 8 ≤ ePos + 4 + dataSize then
      fieldOff0 + 8
    else fieldOff0
  let comp1 :=
    if comp = 0xffffffff ∧ fieldOff1 + 8 ≤ ePos + 4 + dataSize then
      readU64 buf fieldOff1
    else comp
  let fieldOff2 :=
    if comp = 0xffffffff ∧ fieldOff1 + 8 ≤ ePos + 4 + dataSize then
      fieldOff1 + 8
    else fieldOff1
  let lho1 :=
    if lho = 0xffffffff ∧ fieldOff2 + 8 ≤ ePos + 4 + dataSize then
      readU64 buf fieldOff2
    else lho
  (unc1, comp1, lho1)

/-- The `while (ePos + 4 <= extraEnd)` scan over extra-field blocks:
stop at the first block with header id `0x0001` and apply `zip64Fields`,
otherwise skip `4 + dataSize` bytes. -/
def zip64Scan (buf : List Nat) (extraEnd : Nat) (ePos : Nat)
    (unc comp lho : Nat) : Nat × Nat × Nat :=
  if _h : ePos + 4 ≤ extraEnd then
    let dataSize := readU16 buf (ePos + 2)
    if readU16 buf ePos = 0x0001 then
      zip64Fields buf ePos dataSize unc comp lho
    else
      zip64Scan buf extraEnd (ePos + 4 + dataSize) unc comp lho
  else (unc, comp, lho)
termination_by extraEnd - ePos
decreasing_by omega

/-! ## Central Directory record parsing (`parseRemoteZip`, step 5) -/

/-- One entry decoded from a Central Directory file header.  The filename
is kept as its raw bytes (the source decodes them with `TextDecoder`; none
of the verified claims depends on the decode), and the DOS date and time
words are kept raw (the source converts them to a host `Date`). -/
structure CDEntry where
  pathBytes : List Nat
  isDirectory : Bool
  compressedSize : Nat
  uncompressedSize : Nat
  compressionMethod : Nat
  localHeaderOffset : Nat
  modDate : Nat
  modTime : Nat
  deriving Repr, DecidableEq

/-- Decode the Central Directory record at `pos`, including the ZIP64
extra-field resolution that fires when any 32-bit size or offset is the
`0xFFFFFFFF` sentinel. -/
def parseCDRecord (buf : List Nat) (pos : Nat) : CDEntry :=
  let compressionMethod := readU16 buf (pos + 10)
  let modTime := readU16 buf (pos + 12)
  let modDate := readU16 buf (pos + 14)
  let compressedSize0 := readU32 buf (pos + 20)
  let uncompressedSize0 := readU32 buf (pos + 24)
  let fileNameLen := readU16 buf (pos + 28)
  let extraLen := readU16 buf (pos + 30)
  let pathBytes := ((buf.drop (pos + 46)).take fileNameLen)
  let localHeaderOffset0 := readU32 buf (pos + 42)
  let resolved : Nat × Nat × Nat :=
    if compressedSize0 = 0xffffffff ∨ uncompressedSize0 = 0xffffffff ∨
        localHeaderOffset0 = 0xffffffff then
      zip64Scan buf (pos + 46 + fileNameLen + extraLen)
        (pos + 46 + fileNameLen) uncompressedSize0 compressedSize0
        localHeaderOffset0
    else (uncompressedSize0, compressedSize0, localHeaderOffset0)
  { pathBytes := pathBytes
    isDirectory := pathBytes.getLastD 0 = 47
    compressedSize := resolved.2.1
    uncompressedSize := resolved.1
    compressionMethod := compressionMethod
    localHeaderOffset := resolved.2.2
    modDate := modDate
    modTime := modTime }

/-- Advance past the record at `pos`:
`pos += 46 + fileNameLen + extraLen + commentLen`. -/
def cdAdvance (buf : List Nat) (pos : Nat) : Nat :=
  pos + 46 + readU16 buf (pos + 28) + readU16 buf (pos + 30) +
    readU16 buf (pos + 32)

/-- The Central Directory iteration of `parseRemoteZip`:
`for (let i = 0; i < totalEntries && pos + 46 <= cdBuf.length; i++)`,
breaking without error at the first record whose signature is not
`0x02014b50`. -/
def parseCDLoop (buf : List Nat) : Nat → Nat → List CDEntry
  | 0, _ => []
  | n + 1, pos =>
    if pos + 46 ≤ buf.length then
      if readU32 buf pos = cdSignature then
        parseCDRecord buf pos :: parseCDLoop buf n (cdAdvance buf pos)
      else []
    else []

/-- Well-formedness of a Central Directory region: starting at `pos`
there are `n` consecutive records, each fully inside the buffer and each
carrying the `0x02014b50` signature. -/
def validCD (buf : List Nat) : Nat → Nat → Bool
  | _, 0 => true
  | pos, n + 1 =>
    decide (pos + 46 ≤ buf.length) && (readU32 buf pos == cdSignature) &&
      validCD buf (cdAdvance buf pos) n

/-- Position immediately after `n` records starting at `pos`. -/
def cdEndPos (buf : List Nat) : Nat → Nat → Nat
  | pos, 0 => pos
  | pos, n + 1 => cdEndPos buf (cdAdvance buf pos) n

/-- Entry count read from the 16-bit field at offset 10 of the EOCD. -/
def eocdTotalEntries (tail : List Nat) (eocdOff : Nat) : Nat :=
  readU16 tail (eocdOff + 10)

/-- Entry count read from the 64-bit field at offset 32 of the ZIP64
EOCD record. -/
def eocd64TotalEntries (buf : List Nat) (off : Nat) : Nat :=
  readU64 buf (off + 32)

/-- Step 3 of `parseRemoteZip`: the total entry count after ZIP64
resolution — the 64-bit ZIP64 EOCD count on a ZIP64 archive, the 16-bit
EOCD count otherwise. -/
def resolvedTotalEntries (isZip64 : Bool) (tail : List Nat) (eocdOff : Nat)
    (eocd64Buf : List Nat) (eocd64Off : Nat) : Nat :=
  if isZip64 then eocd64TotalEntries eocd64Buf eocd64Off
  else eocdTotalEntries tail eocdOff

/-! ## Range fetching and on-demand extraction

`fetchRange(url, start, end)` returns, on success, exactly the bytes of
the inclusive range `[start, end]` of the remote resource.  We embed the
byte source as the full archive byte list and a successful range fetch as
the corresponding slice (reads past the end give 0, as `byteAt` does). -/

/-- A successful ranged read: the bytes of `[start, endIncl]`. -/
def fetchSlice (bytes : List Nat) (start endIncl : Nat) : List Nat :=
  (List.range (endIncl + 1 - start)).map (fun k => byteAt bytes (start + k))

/-- An entry of a `RemoteZipHandle`, as produced by `parseRemoteZip` and
consumed by the extractors (string path, decoded). -/
structure RemoteZipEntry where
  path : String
  name : String
  isDirectory : Bool
  compressedSize : Nat
  uncompressedSize : Nat
  compressionMethod : Nat
  localHeaderOffset : Nat
  deriving Repr, DecidableEq

/-- `FILE_SIZE_LIMITS.PREVIEW` — 25 MiB. -/
def previewLimit : Nat := 25 * 1024 * 1024

/-- Observable outcome of `extractRemoteFile`, abstracting the
`PreviewState` record: the error cases it can build, or success carrying
the ranged reads that were issued and the decoded bytes. -/
inductive ExtractOutcome where
  | notFound
  | directory
  | tooLarge (size : Nat)
  | unsupportedMethod (m : Nat)
  | corruptLocalHeader
  | extracted (ranges : List (Nat × Nat)) (data : List Nat)
  deriving Repr, DecidableEq

/-- `extractRemoteFile`: the guard chain, the Local File Header fetch of
`30 + 512` bytes at `localHeaderOffset`, the signature check, the data
offset arithmetic, the data fetch, and the STORED/DEFLATE decode.
`inflate d n` embeds `inflateSync(d, \x7b out: new Uint8Array(n) \x7d)`. -/
def extractRemoteFile (bytes : List Nat) (entries : List RemoteZipEntry)
    (inflate : List Nat → Nat → List Nat) (entryPath : String) :
    ExtractOutcome :=
  match entries.find? (fun e => e.path == entryPath) with
  | none => .notFound
  | some entry =>
    if entry.isDirectory then .directory
    else if previewLimit < entry.uncompressedSize then
      .tooLarge entry.uncompressedSize
    else if entry.compressionMethod ≠ 0 ∧ entry.compressionMethod ≠ 8 then
      .unsupportedMethod entry.compressionMethod
    else
      let lfhBuf := fetchSlice bytes entry.localHeaderOffset
        (entry.localHeaderOffset + 541)
      if readU32 lfhBuf 0 ≠ lfhSignature then .corruptLocalHeader
      else
        let lfhFileNameLen := readU16 lfhBuf 26
        let lfhExtraLen := readU16 lfhBuf 28
        let dataStart := entry.localHeaderOffset + 30 + lfhFileNameLen +
          lfhExtraLen
        let dataEnd := dataStart + entry.compressedSize - 1
        let compressedData := fetchSlice bytes dataStart dataEnd
        let fileData :=
          if entry.compressionMethod = 0 then compressedData
          else inflate compressedData entry.uncompressedSize
        .extracted
          [(entry.localHeaderOffset, entry.localHeaderOffset + 541),
            (dataStart, dataEnd)]
          fileData

/-- `extractRemoteFileRaw`: same offset arithmetic without the preview
gate or the Local File Header signature check, returning raw bytes
(`null` on a missing, directory, or unsupported-method entry). -/
def extractRemoteFileRaw (bytes : List Nat) (entries : List RemoteZipEntry)
    (inflate : List Nat → Nat → List Nat) (entryPath : String) :
    Option (List Nat) :=
  match entries.find? (fun e => e.path == entryPath) with
  | none => none
  | some entry =>
    if entry.isDirectory then none
    else if entry.compressionMethod ≠ 0 ∧ entry.compressionMethod ≠ 8 then
      none
    else
      let lfhBuf := fetchSlice bytes entry.localHeaderOffset
        (entry.localHeaderOffset + 541)
      let lfhFileNameLen := readU16 lfhBuf 26
      let lfhExtraLen := readU16 lfhBuf 28
      let dataStart := entry.localHeaderOffset + 30 + lfhFileNameLen +
        lfhExtraLen
      let dataEnd := dataStart + entry.compressedSize - 1
      let compressedData := fetchSlice bytes dataStart dataEnd
      some
        (if entry.compressionMethod = 0 then compressedData
          else inflate compressedData entry.uncompressedSize)

/-- Data start offset the extractors compute for an entry: local header
offset plus 30 plus the name and extra lengths read at offsets 26 and 28
of the Local File Header. -/
def dataStartOf (bytes : List Nat) (entry : RemoteZipEntry) : Nat :=
  entry.localHeaderOffset + 30 + readU16 bytes (entry.localHeaderOffset + 26)
    + readU16 bytes (entry.localHeaderOffset + 28)

/-! ## Surgical extraction (`surgical-extract` module) -/

/-- `createZipFromRemoteSelection`: fetch each selected path through
`extractRemoteFileRaw`, silently skipping failures, and zip the collected
`path -> data` map (`null` when nothing was selected or nothing could be
fetched).  The `Zippable` object is embedded as an association list; the
caller passes the paths of a `Set`, so keys are distinct. -/
def createZipFromRemoteSelection (bytes : List Nat)
    (entries : List RemoteZipEntry) (inflate : List Nat → Nat → List Nat)
    (selectedPaths : List String) : Option (List (String × List Nat)) :=
  if selectedPaths.isEmpty then none
  else if (selectedPaths.filterMap (fun p =>
      (extractRemoteFileRaw bytes entries inflate p).map
        (fun d => (p, d)))).isEmpty then none
  else some (selectedPaths.filterMap (fun p =>
    (extractRemoteFileRaw bytes entries inflate p).map (fun d => (p, d))))

/-- `path.split("/").pop() || path` — the basename rule of
`downloadSingleFile` (falls back to the whole path when the final segment
is empty). -/
def basenameJS (path : String) : String :=
  let seg := (path.splitOn "/").getLastD ""
  if seg = "" then path else seg

/-- `downloadSingleFile`: look the path up in the unzipped map and, when
present, serve the raw bytes under the basename. -/
def downloadSingleFile (unzipped : List (String × List Nat))
    (path : String) : Option (String × List Nat) :=
  match unzipped.lookup path with
  | none => none
  | some d => some (basenameJS path, d)

/-! ## The stats-bar dispatch (`handleExtractSelected`) -/

/-- An entry as the UI sees it (`ZipEntry`, restricted to the fields the
dispatch reads). -/
structure UIEntry where
  path : String
  isDirectory : Bool
  size : Nat
  deriving Repr, DecidableEq

/-- What `handleExtractSelected` decides to do, abstracting its calls:
a plain single-file download (local or remote), opening the original
source URL, or assembling a fresh ZIP (with the large-selection
confirmation flag). -/
inductive ExtractAction where
  | noop
  | singleLocal (path : String)
  | singleRemote (path : String)
  | redirectOriginal (url : String)
  | buildZip (paths : List String) (large : Bool)
  deriving Repr, DecidableEq

/-- The selection dispatch of `handleExtractSelected`: single-path
selections bypass archival, a selection whose length equals the number of
file entries redirects to the source URL when there is one, everything
else re-archives (after a confirmation hook above 200 MiB or 50 paths). -/
def handleExtractSelected (entries : List UIEntry) (paths : List String)
    (hasUnzipped hasRemote : Bool) (sourceUrl : Option String) :
    ExtractAction :=
  if paths.isEmpty then .noop
  else
    let allFiles := entries.filter (fun e => !e.isDirectory)
    if paths.length = 1 then
      if hasUnzipped then .singleLocal (paths.headD "")
      else if hasRemote then .singleRemote (paths.headD "")
      else .noop
    else if paths.length = allFiles.length ∧ sourceUrl.isSome then
      .redirectOriginal (sourceUrl.getD "")
    else
      let totalSelectedSize : Nat :=
        ((allFiles.filter (fun f => paths.contains f.path)).map
          (fun f => f.size)).sum
      .buildZip paths
        (decide (200 * 1024 * 1024 < totalSelectedSize ∨ 50 < paths.length))

/-! ## The media-streaming branch of the proxy `GET` route

The branch taken when `media=1`, `start` and `end` are present.  The
browser Range header is parsed with the regular expression
`bytes=(\d*)-(\d*)` searched anywhere in the header value; a capture that
matched the empty string leaves the corresponding default in place.
JavaScript numbers here are embedded as `Int`, since the arithmetic can
go negative on degenerate inputs. -/

/-- Numeric value of a non-empty digit string (`parseInt` on a digits
capture). -/
def digitsToNat (cs : List Char) : Nat :=
  cs.foldl (fun a c => a * 10 + (c.toNat - 48)) 0

/-- Attempt the tail of the pattern right after a literal `bytes=`:
greedy digits, a dash, greedy digits.  Returns the two captures, `none`
for an empty capture. -/
def rangeGroups (cs : List Char) : Option (Option Nat × Option Nat) :=
  let d1 := cs.takeWhile (fun c => c.isDigit)
  match cs.drop d1.length with
  | '-' :: rest =>
    let d2 := rest.takeWhile (fun c => c.isDigit)
    some
      ((if d1.isEmpty then none else some (digitsToNat d1)),
        (if d2.isEmpty then none else some (digitsToNat d2)))
  | _ => none

/-- First match of `/bytes=(\d*)-(\d*)/` anywhere in the header value. -/
def bytesRangeMatch : List Char → Option (Option Nat × Option Nat)
  | [] => none
  | c :: rest =>
    if (c :: rest).take 6 = ['b', 'y', 't', 'e', 's', '='] then
      match rangeGroups ((c :: rest).drop 6) with
      | some r => some r
      | none => bytesRangeMatch rest
    else bytesRangeMatch rest

/-- Response of the media branch as the client observes it, together
with the absolute upstream range the proxy requests. -/
structure MediaResponse where
  status : Nat
  contentLength : Int
  contentRange : Option (Int × Int × Int)
  upstreamStart : Int
  upstreamEnd : Int
  deriving Repr, DecidableEq

/-- Requested start from the first capture: `parseInt` when the capture
is a non-empty digit string, the default 0 otherwise. -/
def optStartInt (os : Option Nat) : Int :=
  match os with
  | some n => (n : Int)
  | none => 0

/-- Requested end from the second capture: `parseInt` when the capture
is a non-empty digit string, the supplied default otherwise. -/
def optEndInt (oe : Option Nat) (dflt : Int) : Int :=
  match oe with
  | some n => (n : Int)
  | none => dflt

/-- The media-mode branch of the proxy `GET` handler: defaults
`reqStart = 0` and `reqEnd = V - 1`, override from a matched Range
header, clamp the end to `V - 1`, translate by `dataStart`, and answer
206 (with `Content-Range`) precisely when a Range header was present. -/
def mediaGET (dataStart dataEnd : Int) (rangeHeader : Option (List Char)) :
    MediaResponse :=
  let virtualFileSize := dataEnd - dataStart + 1
  let req : Int × Int :=
    match rangeHeader with
    | none => (0, virtualFileSize - 1)
    | some hdr =>
      match bytesRangeMatch hdr with
      | none => (0, virtualFileSize - 1)
      | some (os, oe) =>
        (optStartInt os,
          min (optEndInt oe (virtualFileSize - 1)) (virtualFileSize - 1))
  let absStart := dataStart + req.1
  let absEnd := dataStart + req.2
  match rangeHeader with
  | some _ =>
    { status := 206
      contentLength := req.2 - req.1 + 1
      contentRange := some (req.1, req.2, virtualFileSize)
      upstreamStart := absStart
      upstreamEnd := absEnd }
  | none =>
    { status := 200
      contentLength := virtualFileSize
      contentRange := none
      upstreamStart := absStart
      upstreamEnd := absEnd }

/-! ## `fetchRange` response handling -/

/-- The part of an HTTP response `fetchRange` inspects. -/
structure HttpResponse where
  status : Nat
  contentRange : Option (List Char)
  body : List Nat
  deriving Repr, DecidableEq

/-- `res.ok` — status in `[200, 299]`. -/
def httpOk (status : Nat) : Bool := decide (200 ≤ status ∧ status < 300)

/-- First match of `/\/(\d+)/` in a Content-Range value: the digits
following a slash. -/
def contentRangeTotal : List Char → Option Nat
  | [] => none
  | c :: rest =>
    if c = '/' then
      let ds := rest.takeWhile (fun ch => ch.isDigit)
      if ds.isEmpty then contentRangeTotal rest else some (digitsToNat ds)
    else contentRangeTotal rest

/-- Errors `fetchRange` can throw. -/
inductive FetchError where
  | rangeNotSupported
  | httpStatus (status : Nat)
  deriving Repr, DecidableEq

/-- How `fetchRange` disposes of a response: the `Bool` records whether
`controller.abort()` was invoked before returning (in every non-206
branch, so the body is never drained there), and the `Except` carries the
body bytes and the total size parsed from `Content-Range` on a 206. -/
def fetchRangeResult (res : HttpResponse) :
    Bool × Except FetchError (List Nat × Nat) :=
  if res.status = 206 then
    (false, .ok (res.body, (contentRangeTotal (res.contentRange.getD [])).getD 0))
  else if httpOk res.status then (true, .error .rangeNotSupported)
  else (true, .error (.httpStatus res.status))

/-! ## Concrete instances used by witnesses and counterexamples -/

/-- An inflate function for concrete runs (the claims constrain inflate
only through its output length). -/
def demoInflate : List Nat → Nat → List Nat := fun _ n => List.replicate n 0

/-- A minimal archive region: a Local File Header with empty name and
extra field followed by the five STORED bytes of `hello`. -/
def demoBytes : List Nat :=
  [0x50, 0x4b, 0x03, 0x04] ++ List.replicate 26 0 ++
    [104, 101, 108, 108, 111]

/-- The entry describing the STORED file of `demoBytes`. -/
def demoEntry : RemoteZipEntry :=
  { path := "a.txt", name := "a.txt", isDirectory := false,
    compressedSize := 5, uncompressedSize := 5, compressionMethod := 0,
    localHeaderOffset := 0 }

/-- A directory entry. -/
def demoDirEntry : RemoteZipEntry :=
  { path := "d/", name := "d", isDirectory := true, compressedSize := 0,
    uncompressedSize := 0, compressionMethod := 0, localHeaderOffset := 0 }

/-- A 22-byte EOCD whose total-entry-count field (offset 10) holds 1. -/
def demoEOCD : List Nat :=
  [0x50, 0x4b, 0x05, 0x06, 0, 0, 0, 0, 1, 0, 1, 0] ++ List.replicate 10 0

/-- A minimal valid 46-byte Central Directory record (all variable
lengths zero). -/
def demoCDRecord : List Nat := [0x50, 0x4b, 0x01, 0x02] ++ List.replicate 42 0

/-- A one-record Central Directory. -/
def demoCD : List Nat := demoCDRecord

/-- A Central Directory region holding two valid records followed by 46
bytes that do not carry the record signature. -/
def cdTruncated : List Nat :=
  demoCDRecord ++ demoCDRecord ++ List.replicate 46 0

/-- A Central Directory record whose 32-bit uncompressed size is the
ZIP64 sentinel and whose extra field holds a `0x0001` block with declared
data size 0 — too short for any 64-bit replacement. -/
def zip64TruncBuf : List Nat :=
  [0x50, 0x4b, 0x01, 0x02] ++ List.replicate 20 0 ++ [255, 255, 255, 255] ++
    [0, 0] ++ [4, 0] ++ List.replicate 14 0 ++ [1, 0, 0, 0]

/-- An extra-field region holding a single `0x0001` block with an 8-byte
payload encoding the value 5. -/
def zip64DemoBuf : List Nat := [1, 0, 8, 0, 5, 0, 0, 0, 0, 0, 0, 0]

/-- A single UI file entry. -/
def uiFileA : UIEntry := { path := "a.txt", isDirectory := false, size := 3 }

/-- A second UI file entry. -/
def uiFileB : UIEntry := { path := "b.txt", isDirectory := false, size := 4 }

/-! ## Shared lemmas -/

theorem eocdCandidates_nil_of_short {len : Nat} (h : len < 22) :
    eocdCandidates len = [] := by
  simp [eocdCandidates, h]

theorem findEOCD_none_of_short {buf : List Nat} (h : buf.length < 22) :
    findEOCD buf = none := by
  simp [findEOCD, eocdCandidates_nil_of_short h]

theorem mem_eocdCandidates_bounds {len i : Nat}
    (h : i ∈ eocdCandidates len) :
    22 ≤ len ∧ i + 22 ≤ len ∧ len ≤ i + 65557 := by
  by_cases hlen : len < 22
  · rw [eocdCandidates_nil_of_short hlen] at h
    simp at h
  · unfold eocdCandidates at h
    rw [if_neg hlen] at h
    rcases List.mem_map.mp h with ⟨k, hk, rfl⟩
    rw [List.mem_range] at hk
    omega

/-! ### Central Directory loop lemmas -/

theorem parseCDLoop_length_of_validCD {buf : List Nat} :
    ∀ (n pos : Nat), validCD buf pos n = true →
      (parseCDLoop buf n pos).length = n := by
  intro n
  induction n with
  | zero => intro pos _; simp [parseCDLoop]
  | succ n ih =>
    intro pos h
    unfold validCD at h
    simp only [Bool.and_eq_true, decide_eq_true_eq, beq_iff_eq] at h
    unfold parseCDLoop
    rw [if_pos h.1.1, if_pos h.1.2]
    simp [ih _ h.2]

theorem parseCDLoop_stops_of_validCD {buf : List Nat} :
    ∀ (n pos m : Nat), validCD buf pos n = true →
      (¬ (cdEndPos buf pos n + 46 ≤ buf.length) ∨
        readU32 buf (cdEndPos buf pos n) ≠ cdSignature) →
      parseCDLoop buf (n + m) pos = parseCDLoop buf n pos := by
  intro n
  induction n with
  | zero =>
    intro pos m _ hstop
    cases m with
    | zero => rfl
    | succ m =>
      simp only [parseCDLoop, Nat.zero_add]
      rcases hstop with h | h
      · rw [if_neg (by simpa [cdEndPos] using h)]
      · by_cases hle : pos + 46 ≤ buf.length
        · rw [if_pos hle, if_neg (by simpa [cdEndPos] using h)]
        · rw [if_neg hle]
  | succ n ih =>
    intro pos m h hstop
    unfold validCD at h
    simp only [Bool.and_eq_true, decide_eq_true_eq, beq_iff_eq] at h
    have hrec := ih (cdAdvance buf pos) m h.2 (by simpa [cdEndPos] using hstop)
    show parseCDLoop buf (n + 1 + m) pos = parseCDLoop buf (n + 1) pos
    have hshift : n + 1 + m = (n + m) + 1 := by omega
    rw [hshift]
    unfold parseCDLoop
    rw [if_pos h.1.1, if_pos h.1.2, if_pos h.1.1, if_pos h.1.2, hrec]

theorem length_fetchSlice (bytes : List Nat) (s e : Nat) :
    (fetchSlice bytes s e).length = e + 1 - s := by
  simp [fetchSlice]

theorem byteAt_fetchSlice {bytes : List Nat} {s e k : Nat}
    (h : k < e + 1 - s) :
    byteAt (fetchSlice bytes s e) k = byteAt bytes (s + k) := by
  have hmap : (fetchSlice bytes s e)[k]? = some (byteAt bytes (s + k)) := by
    simp [fetchSlice, List.getElem?_map, List.getElem?_range h]
  unfold byteAt
  rw [List.getD_eq_getElem?_getD, hmap]
  simp [byteAt, Nat.mod_mod_of_dvd _ dvd_rfl]

theorem readU16_fetchSlice {bytes : List Nat} {s e k : Nat}
    (h : k + 2 ≤ e + 1 - s) :
    readU16 (fetchSlice bytes s e) k = readU16 bytes (s + k) := by
  unfold readU16
  rw [byteAt_fetchSlice (by omega), byteAt_fetchSlice (by omega)]
  ring_nf

theorem readU32_fetchSlice {bytes : List Nat} {s e k : Nat}
    (h : k + 4 ≤ e + 1 - s) :
    readU32 (fetchSlice bytes s e) k = readU32 bytes (s + k) := by
  unfold readU32
  rw [byteAt_fetchSlice (by omega), byteAt_fetchSlice (by omega),
    byteAt_fetchSlice (by omega), byteAt_fetchSlice (by omega)]
  ring_nf

theorem zip64Scan_stop {buf : List Nat} {extraEnd ePos unc comp lho : Nat}
    (h : ¬ ePos + 4 ≤ extraEnd) :
    zip64Scan buf extraEnd ePos unc comp lho = (unc, comp, lho) := by
  unfold zip64Scan
  simp [h]

theorem zip64Scan_found {buf : List Nat} {extraEnd ePos unc comp lho : Nat}
    (h : ePos + 4 ≤ extraEnd) (hid : readU16 buf ePos = 0x0001) :
    zip64Scan buf extraEnd ePos unc comp lho =
      zip64Fields buf ePos (readU16 buf (ePos + 2)) unc comp lho := by
  unfold zip64Scan
  simp [h, hid]

theorem zip64Scan_skip {buf : List Nat} {extraEnd ePos unc comp lho : Nat}
    (h : ePos + 4 ≤ extraEnd) (hid : readU16 buf ePos ≠ 0x0001) :
    zip64Scan buf extraEnd ePos unc comp lho =
      zip64Scan buf extraEnd (ePos + 4 + readU16 buf (ePos + 2))
        unc comp lho := by
  conv_lhs => unfold zip64Scan
  simp [h, hid]

theorem zipKeys_filterMap (f : String → Option (List Nat)) :
    ∀ P : List String,
      (P.filterMap (fun p => (f p).map (fun d => (p, d)))).map Prod.fst =
        P.filter (fun p => (f p).isSome)
  | [] => rfl
  | p :: ps => by
    cases hf : f p <;>
      simp [List.filterMap_cons, hf, zipKeys_filterMap f ps]

/-! ## Claim theorems -/

/-- C10: on a tail buffer shorter than 22 bytes the EOCD scan inspects
no offsets and reports not-found, so parsing fails with the
not-a-valid-ZIP error instead of indexing at negative offsets; in
general every inspected offset `i` satisfies `0 ≤ i ≤ length - 22` and
lies within the last 65557 bytes. -/
theorem findEOCD_short_tail_and_bounds (buf : List Nat) :
    (buf.length < 22 →
      eocdCandidates buf.length = [] ∧ findEOCD buf = none ∧
        locateEOCD buf = .error notAZipMessage) ∧
    (∀ i ∈ eocdCandidates buf.length,
      i + 22 ≤ buf.length ∧ buf.length ≤ i + 65557) := by
  constructor
  · intro h
    refine ⟨eocdCandidates_nil_of_short h, findEOCD_none_of_short h, ?_⟩
    simp [locateEOCD, findEOCD_none_of_short h]
  · intro i hi
    exact (mem_eocdCandidates_bounds hi).2

/-- C10 witness: a 3-byte buffer is rejected with the not-a-valid-ZIP
error and its candidate list is empty. -/
theorem findEOCD_short_tail_and_bounds_witness :
    eocdCandidates ([0, 1, 2] : List Nat).length = [] ∧
      locateEOCD [0, 1, 2] = .error notAZipMessage :=
  ⟨((findEOCD_short_tail_and_bounds [0, 1, 2]).1 (by decide)).1,
    ((findEOCD_short_tail_and_bounds [0, 1, 2]).1 (by decide)).2.2⟩

/-- C2: for a well-formed archive (every declared record present with a
valid signature), the Central Directory iteration produces exactly the
entry count read from the EOCD — or, for ZIP64, from the ZIP64 EOCD
record. -/
theorem parseRemoteZip_entry_count (tail cdBuf eocd64Buf : List Nat)
    (eocdOff eocd64Off : Nat) (isZip64 : Bool)
    (hvalid : validCD cdBuf 0
      (resolvedTotalEntries isZip64 tail eocdOff eocd64Buf eocd64Off) =
        true) :
    (parseCDLoop cdBuf
        (resolvedTotalEntries isZip64 tail eocdOff eocd64Buf eocd64Off)
        0).length =
      resolvedTotalEntries isZip64 tail eocdOff eocd64Buf eocd64Off :=
  parseCDLoop_length_of_validCD _ 0 hvalid

/-- C2 witness: a one-record directory together with an EOCD declaring
one entry. -/
theorem parseRemoteZip_entry_count_witness :
    validCD demoCD 0 (resolvedTotalEntries false demoEOCD 0 [] 0) = true ∧
      (parseCDLoop demoCD (resolvedTotalEntries false demoEOCD 0 [] 0)
          0).length =
        resolvedTotalEntries false demoEOCD 0 [] 0 :=
  ⟨by decide, parseRemoteZip_entry_count demoEOCD demoCD [] 0 0 false
    (by decide)⟩

/-- C7 counterexample: on a directory declaring 3 entries whose third
record lacks the `0x02014b50` signature, the complete value returned by
the Central Directory iteration is identical to the one returned for a
clean 2-entry directory over the same bytes — the parser stops and keeps
the prefix without any error, but nothing in the returned value carries a
warning, contradicting the claim that the entries are returned alongside
a non-fatal warning. -/
theorem parseCD_truncation_indistinguishable :
    parseCDLoop cdTruncated 3 0 = parseCDLoop cdTruncated 2 0 ∧
      (parseCDLoop cdTruncated 3 0).length = 2 ∧
      validCD cdTruncated 0 2 = true ∧
      readU32 cdTruncated 92 ≠ cdSignature ∧
      validCD cdTruncated 0 3 = false := by
  decide

/-- C7 (amended): when the first `n` records are valid and the record
after them fails the signature check (or does not fit), the iteration
returns exactly the `n` previously decoded entries, whatever larger
count the EOCD declared; no fatal error is raised (the function is
total), but no warning accompanies the result — the value equals a clean
parse of `n` records. -/
theorem parseCD_stops_at_bad_signature (buf : List Nat) (n m : Nat)
    (hvalid : validCD buf 0 n = true)
    (hbad : ¬ cdEndPos buf 0 n + 46 ≤ buf.length ∨
      readU32 buf (cdEndPos buf 0 n) ≠ cdSignature) :
    parseCDLoop buf (n + m) 0 = parseCDLoop buf n 0 ∧
      (parseCDLoop buf (n + m) 0).length = n := by
  have h1 := parseCDLoop_stops_of_validCD n 0 m hvalid hbad
  exact ⟨h1, by rw [h1]; exact parseCDLoop_length_of_validCD n 0 hvalid⟩

/-- C7 witness: the truncated directory instantiates the amended
statement at `n = 2`, `m = 1`. -/
theorem parseCD_stops_at_bad_signature_witness :
    parseCDLoop cdTruncated (2 + 1) 0 = parseCDLoop cdTruncated 2 0 ∧
      (parseCDLoop cdTruncated (2 + 1) 0).length = 2 :=
  parseCD_stops_at_bad_signature cdTruncated 2 1 (by decide)
    (Or.inr (by decide))

/-- C6: a 206 response is the success case of `fetchRange` — it returns
the body bytes with the total size parsed from `Content-Range` and never
aborts — while a 200 response is aborted (the flag records the
`controller.abort()` issued before the body could be drained) and fails
with the range-not-supported error. -/
theorem fetchRange_status_dispatch (res : HttpResponse) :
    (res.status = 206 →
      fetchRangeResult res =
        (false, .ok (res.body,
          (contentRangeTotal (res.contentRange.getD [])).getD 0))) ∧
    (res.status = 200 →
      fetchRangeResult res = (true, .error .rangeNotSupported)) := by
  constructor
  · intro h
    simp [fetchRangeResult, h]
  · intro h
    simp [fetchRangeResult, h, httpOk]

/-- C6 witness: a 200 response with a body is rejected as
range-not-supported with the abort flag set. -/
theorem fetchRange_status_dispatch_witness :
    fetchRangeResult { status := 200, contentRange := none, body := [1, 2] } =
      (true, .error .rangeNotSupported) :=
  (fetchRange_status_dispatch
    { status := 200, contentRange := none, body := [1, 2] }).2 rfl

/-- C5: with virtual size `V = dataEnd - dataStart + 1`, an unranged
request is answered 200 with length `V`; a request with a Range header
is answered 206 with `Content-Range R_start-R_end/V` and length
`R_end - R_start + 1`, where a missing start defaults to 0, a missing
end defaults to `V - 1`, the end is clamped to `V - 1`, a header the
pattern does not match is treated as the full-file range, and the
upstream request covers `[dataStart + R_start, dataStart + R_end]`. -/
theorem mediaGateway_semantics (dataStart dataEnd : Int)
    (hdr : Option (List Char)) :
    (hdr = none →
      mediaGET dataStart dataEnd hdr =
        { status := 200, contentLength := dataEnd - dataStart + 1,
          contentRange := none, upstreamStart := dataStart,
          upstreamEnd := dataEnd }) ∧
    (∀ s, hdr = some s → bytesRangeMatch s = none →
      mediaGET dataStart dataEnd hdr =
        { status := 206, contentLength := dataEnd - dataStart + 1,
          contentRange :=
            some (0, dataEnd - dataStart, dataEnd - dataStart + 1),
          upstreamStart := dataStart, upstreamEnd := dataEnd }) ∧
    (∀ s os oe, hdr = some s → bytesRangeMatch s = some (os, oe) →
      mediaGET dataStart dataEnd hdr =
        { status := 206
          contentLength :=
            min (optEndInt oe (dataEnd - dataStart)) (dataEnd - dataStart) -
              optStartInt os + 1
          contentRange :=
            some (optStartInt os,
              min (optEndInt oe (dataEnd - dataStart)) (dataEnd - dataStart),
              dataEnd - dataStart + 1)
          upstreamStart := dataStart + optStartInt os
          upstreamEnd := dataStart +
            min (optEndInt oe (dataEnd - dataStart))
              (dataEnd - dataStart) }) := by
  have hV : dataEnd - dataStart + 1 - 1 = dataEnd - dataStart := by ring
  refine ⟨?_, ?_, ?_⟩
  · rintro rfl
    dsimp only [mediaGET]
    rw [MediaResponse.mk.injEq]
    refine ⟨rfl, by ring, rfl, by ring, by ring⟩
  · rintro s rfl hm
    dsimp only [mediaGET]
    rw [hm]
    rw [MediaResponse.mk.injEq]
    refine ⟨rfl, by ring, ?_, by ring, by ring⟩
    rw [Option.some.injEq, Prod.mk.injEq, Prod.mk.injEq]
    exact ⟨rfl, by ring, rfl⟩
  · rintro s os oe rfl hm
    dsimp only [mediaGET]
    rw [hm, hV]

/-- C5 witness: scenario of the specification — a virtual file of
10 400 000 bytes at `[100000, 10499999]` and `Range: bytes=500-999`
yields 206, `Content-Range 500-999/10400000`, length 500, upstream
`[100500, 100999]`. -/
theorem mediaGateway_semantics_witness :
    mediaGET 100000 10499999 (some ("bytes=500-999".toList)) =
      { status := 206, contentLength := 500,
        contentRange := some (500, 999, 10400000),
        upstreamStart := 100500, upstreamEnd := 100999 } :=
  ((mediaGateway_semantics 100000 10499999
      (some ("bytes=500-999".toList))).2.2 "bytes=500-999".toList
    (some 500) (some 999) rfl (by decide)).trans (by decide)

/-- C8 counterexample: with the selection `["a.txt", "d/"]`, where both
are entry paths of the archive, the assembled ZIP holds only `"a.txt"`
(the directory entry is skipped by `extractRemoteFileRaw`), so the
entries of the result are not exactly the selection. -/
theorem createZip_selection_not_exact :
    (createZipFromRemoteSelection demoBytes [demoEntry, demoDirEntry]
          demoInflate ["a.txt", "d/"]).map (fun l => l.map Prod.fst) =
        some ["a.txt"] ∧
      "d/" ∈ ["a.txt", "d/"] ∧
      "d/" ∈ [demoEntry, demoDirEntry].map RemoteZipEntry.path ∧
      some (["a.txt"] : List String) ≠ some ["a.txt", "d/"] := by
  decide

/-- C8 (amended): the new ZIP holds exactly those selected paths whose
raw extraction succeeds, in selection order (`null` when the selection
is empty or nothing could be fetched). -/
theorem createZip_keys_are_successful_selection (bytes : List Nat)
    (entries : List RemoteZipEntry) (inflate : List Nat → Nat → List Nat)
    (P : List String) (hne : P ≠ [])
    (hsome : ∃ p ∈ P,
      (extractRemoteFileRaw bytes entries inflate p).isSome) :
    (createZipFromRemoteSelection bytes entries inflate P).map
        (fun l => l.map Prod.fst) =
      some (P.filter
        (fun p => (extractRemoteFileRaw bytes entries inflate p).isSome)) := by
  obtain ⟨p, hp, hps⟩ := hsome
  have hk := zipKeys_filterMap (extractRemoteFileRaw bytes entries inflate) P
  have h1 : ¬ P.isEmpty = true := by
    cases P with
    | nil => exact absurd rfl hne
    | cons a l => simp
  have h2 : ¬ (P.filterMap (fun q =>
      (extractRemoteFileRaw bytes entries inflate q).map
        (fun d => (q, d)))).isEmpty = true := by
    intro hempty
    rw [List.isEmpty_iff] at hempty
    rw [hempty] at hk
    have hmem : p ∈ P.filter
        (fun q => (extractRemoteFileRaw bytes entries inflate q).isSome) :=
      List.mem_filter.mpr ⟨hp, hps⟩
    rw [← hk] at hmem
    simp at hmem
  unfold createZipFromRemoteSelection
  rw [if_neg h1, if_neg h2]
  simp [hk]

/-- C8 witness: a singleton selection of the STORED file yields a ZIP
whose keys are exactly the successful selection. -/
theorem createZip_keys_are_successful_selection_witness :
    (createZipFromRemoteSelection demoBytes [demoEntry, demoDirEntry]
        demoInflate ["a.txt"]).map (fun l => l.map Prod.fst) =
      some ((["a.txt"] : List String).filter
        (fun p => (extractRemoteFileRaw demoBytes [demoEntry, demoDirEntry]
          demoInflate p).isSome)) :=
  createZip_keys_are_successful_selection demoBytes
    [demoEntry, demoDirEntry] demoInflate ["a.txt"] (by decide)
    ⟨"a.txt", by decide, by decide⟩

/-- C9 counterexample: with a single-file archive loaded from a URL and
that file selected, the selection contains every file entry and the
source is a URL, yet the dispatch performs the single-file download, not
the redirect to the source URL. -/
theorem single_selection_beats_redirect :
    handleExtractSelected [uiFileA] ["a.txt"] true true
        (some "https://example.com/a.zip") = .singleLocal "a.txt" ∧
      ([uiFileA].filter (fun e => !e.isDirectory)).map UIEntry.path =
        ["a.txt"] ∧
      ExtractAction.singleLocal "a.txt" ≠
        .redirectOriginal "https://example.com/a.zip" := by
  decide

/-- C9 (amended): a single-path selection bypasses archival — the
dispatch downloads the one file (locally or remotely) and
`downloadSingleFile` names it with the basename; and when the selection
has at least two paths, is duplicate-free, is drawn from the file
entries (the UI only offers checkboxes on non-directories), and covers
all of them, the dispatch redirects to the source URL with no
re-archival. -/
theorem selection_dispatch (entries : List UIEntry) (paths : List String)
    (b2 : Bool) (u p : String) (unzipped : List (String × List Nat))
    (d : List Nat) :
    (handleExtractSelected entries [p] true b2 (some u) =
      .singleLocal p) ∧
    (handleExtractSelected entries [p] false true (some u) =
      .singleRemote p) ∧
    (unzipped.lookup p = some d →
      downloadSingleFile unzipped p = some (basenameJS p, d)) ∧
    (paths.Nodup →
      (((entries.filter (fun e => !e.isDirectory)).map UIEntry.path).Nodup) →
      (∀ q ∈ paths,
        q ∈ (entries.filter (fun e => !e.isDirectory)).map UIEntry.path) →
      (∀ q ∈ (entries.filter (fun e => !e.isDirectory)).map UIEntry.path,
        q ∈ paths) →
      2 ≤ paths.length →
      ∀ b1 : Bool, handleExtractSelected entries paths b1 b2 (some u) =
        .redirectOriginal u) := by
  refine ⟨?_, ?_, ?_, ?_⟩
  · simp [handleExtractSelected]
  · simp [handleExtractSelected]
  · intro hl
    simp [downloadSingleFile, hl]
  · intro h1 h2 h3 h4 hlen b1
    have hsub1 : paths ⊆
        (entries.filter (fun e => !e.isDirectory)).map UIEntry.path :=
      fun q hq => h3 q hq
    have hsub2 :
        (entries.filter (fun e => !e.isDirectory)).map UIEntry.path ⊆
          paths := fun q hq => h4 q hq
    have hlen2 : paths.length =
        ((entries.filter (fun e => !e.isDirectory)).map UIEntry.path).length :=
      le_antisymm (h1.subperm hsub1).length_le (h2.subperm hsub2).length_le
    have hne : ¬ paths.isEmpty = true := by
      cases paths with
      | nil => simp at hlen
      | cons a l => simp
    have hlen1 : ¬ paths.length = 1 := by omega
    unfold handleExtractSelected
    rw [if_neg hne, if_neg hlen1,
      if_pos ⟨by rw [hlen2, List.length_map], rfl⟩]
    rfl

/-- C9 witness: two files, both selected, source URL present — the
dispatch redirects to the source URL. -/
theorem selection_dispatch_witness :
    handleExtractSelected [uiFileA, uiFileB] ["a.txt", "b.txt"] true true
      (some "https://example.com/a.zip") =
      .redirectOriginal "https://example.com/a.zip" :=
  (selection_dispatch [uiFileA, uiFileB] ["a.txt", "b.txt"] true
      "https://example.com/a.zip" "a.txt" [] []).2.2.2
    (by decide) (by decide) (by decide) (by decide) (by decide) true

/-- C1: when extraction succeeds the decoded bytes have length equal to
the uncompressed size — for DEFLATE because the output buffer is
pre-sized to `uncompressedSize` (hypothesis on `inflate`, which is how
`inflateSync` behaves with a supplied `out` buffer), and for STORED
because the output is the fetched compressed region verbatim, of length
`compressedSize`, equal to `uncompressedSize` under the stated
STORED-entry hypothesis. -/
theorem extractRemoteFile_length (bytes : List Nat)
    (entries : List RemoteZipEntry) (inflate : List Nat → Nat → List Nat)
    (entryPath : String) (e : RemoteZipEntry) (ranges : List (Nat × Nat))
    (data : List Nat)
    (hinflate : ∀ d n, (inflate d n).length = n)
    (hfind : entries.find? (fun x => x.path == entryPath) = some e)
    (hstored : e.compressionMethod = 0 →
      e.compressedSize = e.uncompressedSize)
    (hok : extractRemoteFile bytes entries inflate entryPath =
      .extracted ranges data) :
    data.length = e.uncompressedSize ∧
      (e.compressionMethod = 0 →
        data = fetchSlice bytes (dataStartOf bytes e)
            (dataStartOf bytes e + e.compressedSize - 1) ∧
          data.length = e.compressedSize) := by
  have h26 : readU16 (fetchSlice bytes e.localHeaderOffset
      (e.localHeaderOffset + 541)) 26 =
      readU16 bytes (e.localHeaderOffset + 26) :=
    readU16_fetchSlice (by omega)
  have h28 : readU16 (fetchSlice bytes e.localHeaderOffset
      (e.localHeaderOffset + 541)) 28 =
      readU16 bytes (e.localHeaderOffset + 28) :=
    readU16_fetchSlice (by omega)
  unfold extractRemoteFile at hok
  rw [hfind] at hok
  dsimp only at hok
  split_ifs at hok with hdir hsize hmeth hsig hm
  · injection hok with hr hd
    subst hd
    constructor
    · rw [length_fetchSlice, ← hstored hm]
      omega
    · intro _
      refine ⟨?_, ?_⟩
      · simp only [dataStartOf]
        rw [h26, h28]
      · rw [length_fetchSlice]
        omega
  · injection hok with hr hd
    subst hd
    exact ⟨hinflate _ _, fun hc => absurd hc hm⟩

/-- C1 witness: the STORED `hello` entry extracts to 5 bytes, its
uncompressed size. -/
theorem extractRemoteFile_length_witness :
    ([104, 101, 108, 108, 111] : List Nat).length =
      demoEntry.uncompressedSize :=
  (extractRemoteFile_length demoBytes [demoEntry] demoInflate "a.txt"
      demoEntry [(0, 541), (30, 34)] [104, 101, 108, 108, 111]
      (fun d n => by simp [demoInflate]) (by decide) (fun _ => rfl)
      (by decide)).1

/-- C4: extraction fetches the 542-byte Local File Header region at
`localHeaderOffset`; when the four bytes there are not `0x04034b50` it
fails with the corrupt-local-header error, and otherwise it computes
`dataStart = localHeaderOffset + 30 + nameLen + extraLen` (lengths read
at offsets 26 and 28 of the Local File Header) and fetches exactly
`[dataStart, dataStart + compressedSize - 1]`. -/
theorem extractRemoteFile_localHeader (bytes : List Nat)
    (entries : List RemoteZipEntry) (inflate : List Nat → Nat → List Nat)
    (entryPath : String) (e : RemoteZipEntry)
    (hfind : entries.find? (fun x => x.path == entryPath) = some e)
    (hdir : e.isDirectory = false)
    (hsize : e.uncompressedSize ≤ previewLimit)
    (hmeth : e.compressionMethod = 0 ∨ e.compressionMethod = 8) :
    (readU32 bytes e.localHeaderOffset ≠ lfhSignature →
      extractRemoteFile bytes entries inflate entryPath =
        .corruptLocalHeader) ∧
    (readU32 bytes e.localHeaderOffset = lfhSignature →
      ∃ data, extractRemoteFile bytes entries inflate entryPath =
        .extracted
          [(e.localHeaderOffset, e.localHeaderOffset + 541),
            (dataStartOf bytes e,
              dataStartOf bytes e + e.compressedSize - 1)]
          data) := by
  have h0 : readU32 (fetchSlice bytes e.localHeaderOffset
      (e.localHeaderOffset + 541)) 0 =
      readU32 bytes e.localHeaderOffset := by
    have := @readU32_fetchSlice bytes e.localHeaderOffset
      (e.localHeaderOffset + 541) 0 (by omega)
    simpa using this
  have h26 : readU16 (fetchSlice bytes e.localHeaderOffset
      (e.localHeaderOffset + 541)) 26 =
      readU16 bytes (e.localHeaderOffset + 26) :=
    readU16_fetchSlice (by omega)
  have h28 : readU16 (fetchSlice bytes e.localHeaderOffset
      (e.localHeaderOffset + 541)) 28 =
      readU16 bytes (e.localHeaderOffset + 28) :=
    readU16_fetchSlice (by omega)
  have hdir' : ¬ e.isDirectory = true := by simp [hdir]
  have hsize' : ¬ previewLimit < e.uncompressedSize := by omega
  have hmeth' : ¬ (e.compressionMethod ≠ 0 ∧ e.compressionMethod ≠ 8) := by
    tauto
  constructor
  · intro hsig
    unfold extractRemoteFile
    rw [hfind]
    dsimp only
    rw [if_neg hdir', if_neg hsize', if_neg hmeth',
      if_pos (by rw [h0]; exact hsig)]
  · intro hsig
    unfold extractRemoteFile
    rw [hfind]
    dsimp only
    rw [if_neg hdir', if_neg hsize', if_neg hmeth',
      if_neg (by rw [h0]; simpa using hsig), h26, h28]
    exact ⟨_, rfl⟩

/-- C4 witness: the demo archive has the signature in place, so the
extractor fetches the header region `[0, 541]` and then exactly the
STORED data range. -/
theorem extractRemoteFile_localHeader_witness :
    ∃ data, extractRemoteFile demoBytes [demoEntry] demoInflate "a.txt" =
      .extracted
        [(demoEntry.localHeaderOffset, demoEntry.localHeaderOffset + 541),
          (dataStartOf demoBytes demoEntry,
            dataStartOf demoBytes demoEntry + demoEntry.compressedSize - 1)]
        data :=
  (extractRemoteFile_localHeader demoBytes [demoEntry] demoInflate "a.txt"
      demoEntry (by decide) rfl (by decide) (Or.inl rfl)).2 (by decide)

/-- C3 counterexample: a record whose 32-bit uncompressed size is the
`0xFFFFFFFF` sentinel and whose `0x0001` block declares data size 0.
The claim says 8 bytes are consumed for a field if and only if it was
the sentinel — here the field is the sentinel, yet nothing is consumed:
the parsed record keeps `0xFFFFFFFF` instead of the 64-bit replacement
the claim mandates (`readU64` at the block payload, which is 0 here). -/
theorem zip64_sentinel_not_consumed :
    (parseCDRecord zip64TruncBuf 0).uncompressedSize = 0xffffffff ∧
      readU32 zip64TruncBuf 24 = 0xffffffff ∧
      readU16 zip64TruncBuf 46 = 0x0001 ∧
      readU16 zip64TruncBuf 48 = 0 ∧
      readU64 zip64TruncBuf 50 = 0 ∧
      (0xffffffff : Nat) ≠ 0 := by
  have hscan : zip64Scan zip64TruncBuf 50 46 0xffffffff 0 0 =
      (0xffffffff, 0, 0) := by
    rw [zip64Scan_found (by decide) (by decide)]
    decide
  refine ⟨?_, by decide, by decide, by decide, by decide, by decide⟩
  have e20 : readU32 zip64TruncBuf (0 + 20) = 0 := by decide
  have e24 : readU32 zip64TruncBuf (0 + 24) = 0xffffffff := by decide
  have e42 : readU32 zip64TruncBuf (0 + 42) = 0 := by decide
  have e28 : readU16 zip64TruncBuf (0 + 28) = 0 := by decide
  have e30 : readU16 zip64TruncBuf (0 + 30) = 4 := by decide
  simp only [parseCDRecord, e20, e24, e42, e28, e30]
  rw [if_pos (by norm_num)]
  norm_num
  rw [hscan]

/-- C3 (amended): the resolution scans the extra field for the first
block with header id `0x0001` (skipping `4 + dataSize` bytes past every
other block, stopping when fewer than 4 bytes remain) and reads the
64-bit replacements in the fixed order uncompressed size, compressed
size, local-header offset — consuming 8 bytes for a field if and only if
that field's 32-bit value was the `0xFFFFFFFF` sentinel AND 8 further
bytes fit within the block's declared data size; every field that is not
replaced keeps its 32-bit value. -/
theorem zip64_resolution_characterization (buf : List Nat)
    (extraEnd ePos sz unc comp lho : Nat) :
    (¬ ePos + 4 ≤ extraEnd →
      zip64Scan buf extraEnd ePos unc comp lho = (unc, comp, lho)) ∧
    (ePos + 4 ≤ extraEnd → readU16 buf ePos ≠ 0x0001 →
      zip64Scan buf extraEnd ePos unc comp lho =
        zip64Scan buf extraEnd (ePos + 4 + readU16 buf (ePos + 2))
          unc comp lho) ∧
    (ePos + 4 ≤ extraEnd → readU16 buf ePos = 0x0001 →
      zip64Scan buf extraEnd ePos unc comp lho =
        zip64Fields buf ePos (readU16 buf (ePos + 2)) unc comp lho) ∧
    (zip64Fields buf ePos sz unc comp lho =
      ((if unc = 0xffffffff ∧ 8 ≤ sz then readU64 buf (ePos + 4) else unc),
        (if comp = 0xffffffff ∧
            (if unc = 0xffffffff ∧ 8 ≤ sz then 8 else 0) + 8 ≤ sz then
          readU64 buf
            (ePos + 4 + (if unc = 0xffffffff ∧ 8 ≤ sz then 8 else 0))
        else comp),
        (if lho = 0xffffffff ∧
            (if unc = 0xffffffff ∧ 8 ≤ sz then 8 else 0) +
              (if comp = 0xffffffff ∧
                  (if unc = 0xffffffff ∧ 8 ≤ sz then 8 else 0) + 8 ≤ sz
                then 8 else 0) + 8 ≤ sz then
          readU64 buf
            (ePos + 4 + (if unc = 0xffffffff ∧ 8 ≤ sz then 8 else 0) +
              (if comp = 0xffffffff ∧
                  (if unc = 0xffffffff ∧ 8 ≤ sz then 8 else 0) + 8 ≤ sz
                then 8 else 0))
        else lho))) := by
  refine ⟨fun h => zip64Scan_stop h, fun h hid => zip64Scan_skip h hid,
    fun h hid => zip64Scan_found h hid, ?_⟩
  dsimp only [zip64Fields]
  split_ifs <;> first | rfl | omega

/-- C3 witness: a well-found `0x0001` block of size 8 with only the
uncompressed size a sentinel: the scan stops at the block, consumes one
8-byte field for the sentinel and leaves the other two fields alone. -/
theorem zip64_resolution_characterization_witness :
    zip64Scan zip64DemoBuf 12 0 0xffffffff 7 9 = (5, 7, 9) := by
  have h := (zip64_resolution_characterization zip64DemoBuf 12 0
    (readU16 zip64DemoBuf 2) 0xffffffff 7 9).2.2.1 (by decide) (by decide)
  rw [h]
  decide

end Unzippr
